import Mathlib

/-!
Verification of the mindshare prediction-market oracle resolution engine.

The development embeds the TypeScript source shallowly:
bytes are natural numbers below 256, byte strings are lists of such numbers,
hex-encoded 32-byte values (market ids, digests) are modelled as 32-byte lists,
JavaScript numbers holding unix timestamps and ranks are natural numbers,
fallible computations return Except with the JavaScript Error message as the
error value, and the effectful pipeline of the batch driver is modelled by
explicit environment records of fallible functions plus an event trace.
-/

deriving instance DecidableEq for Except

namespace MindshareOracle

/-! ## Keccak-256, as used by ethers.keccak256 -/

/-- Mask keeping the low 64 bits of a natural number. -/
def mask64 : Nat := 2 ^ 64 - 1

/-- Rotate a 64-bit lane left by r bits. -/
def rotl64 (x r : Nat) : Nat :=
  ((x <<< r) ||| (x >>> (64 - r))) &&& mask64

/-- Keccak theta step on a 25-lane state, lane i holding A[i % 5][i / 5]. -/
def theta (A : List Nat) : List Nat :=
  let C := (List.range 5).map fun x =>
    (A.getD x 0) ^^^ (A.getD (x + 5) 0) ^^^ (A.getD (x + 10) 0) ^^^
      (A.getD (x + 15) 0) ^^^ (A.getD (x + 20) 0)
  let D := (List.range 5).map fun x =>
    (C.getD ((x + 4) % 5) 0) ^^^ rotl64 (C.getD ((x + 1) % 5) 0) 1
  (List.range 25).map fun i => (A.getD i 0) ^^^ (D.getD (i % 5) 0)

/-- Source lane index feeding output lane j of the combined rho-pi step,
from inverting the pi permutation (x, y) to (y, (2x + 3y) % 5). -/
def piSrc : List Nat :=
  (List.range 25).map fun j => (j % 5 + 3 * (j / 5)) % 5 + 5 * (j % 5)

/-- Association list of lane index to rho rotation offset, generated by the
standard walk starting at lane (1, 0) with triangular-number offsets. -/
def rhoAssoc : List (Nat × Nat) :=
  ((List.range 24).foldl
    (fun acc t =>
      let x := acc.1.1
      let y := acc.1.2
      ((y, (2 * x + 3 * y) % 5), (x + 5 * y, ((t + 1) * (t + 2) / 2) % 64) :: acc.2))
    ((1, 0), [])).2

/-- Keccak rotation offsets, indexed like the state lanes. -/
def rotOff : List Nat :=
  (List.range 25).map fun i =>
    match rhoAssoc.find? (fun p => p.1 == i) with
    | some p => p.2
    | none => 0

/-- Combined rho and pi steps. -/
def rhoPi (A : List Nat) : List Nat :=
  (List.range 25).map fun j =>
    let i := piSrc.getD j 0
    rotl64 (A.getD i 0) (rotOff.getD i 0)

/-- Keccak chi step. -/
def chi (B : List Nat) : List Nat :=
  (List.range 25).map fun i =>
    let x := i % 5
    let base := i - x
    (B.getD i 0) ^^^ (((B.getD (base + (x + 1) % 5) 0) ^^^ mask64) &&& (B.getD (base + (x + 2) % 5) 0))

/-- Successor state of the degree-8 LFSR generating the Keccak round
constants, with feedback polynomial bits 0x71. -/
def lfsrNext (s : Nat) : Nat :=
  if s &&& 0x80 ≠ 0 then ((s <<< 1) ^^^ 0x71) &&& 0xFF else (s <<< 1) &&& 0xFF

/-- Round constant built from an LFSR state, paired with the state for the
next round: output bit j of the LFSR lands at bit position 2 ^ j - 1. -/
def nextRC (s : Nat) : Nat × Nat :=
  (List.range 7).foldl
    (fun acc j =>
      let rc := if acc.2 &&& 1 = 1 then acc.1 ^^^ (1 <<< ((1 <<< j) - 1)) else acc.1
      (rc, lfsrNext acc.2))
    (0, s)

/-- The 24 Keccak round constants, generated from LFSR state 1. -/
def roundConsts : List Nat :=
  ((List.range 24).foldl
    (fun acc _ =>
      let p := nextRC acc.2
      (acc.1 ++ [p.1], p.2))
    (([] : List Nat), 1)).1

/-- One Keccak round: theta, rho, pi, chi, then iota with round constant rc. -/
def keccakRound (A : List Nat) (rc : Nat) : List Nat :=
  match chi (rhoPi (theta A)) with
  | [] => []
  | a0 :: rest => (a0 ^^^ rc) :: rest

/-- The keccak-f[1600] permutation. -/
def keccakF (A : List Nat) : List Nat :=
  roundConsts.foldl keccakRound A

/-- Keccak pad10*1 padding for rate 136 and the original Keccak domain byte 0x01. -/
def keccakPad (len : Nat) : List Nat :=
  let q := 136 - len % 136
  if q = 1 then [0x81]
  else 0x01 :: (List.replicate (q - 2) 0 ++ [0x80])

/-- Little-endian interpretation of a byte list as one 64-bit lane. -/
def bytesToLane (bs : List Nat) : Nat :=
  bs.foldr (fun b acc => b + 256 * acc) 0

/-- Xor one 136-byte block into the first 17 lanes of the state. -/
def absorbBlock (st block : List Nat) : List Nat :=
  (List.range 25).map fun i =>
    if i < 17 then (st.getD i 0) ^^^ bytesToLane ((block.drop (8 * i)).take 8)
    else st.getD i 0

/-- Keccak-256 of a byte list, returned as its 32-byte digest. -/
def keccak256 (msg : List Nat) : List Nat :=
  let padded := msg ++ keccakPad msg.length
  let blocks := (List.range (padded.length / 136)).map fun k => (padded.drop (136 * k)).take 136
  let final := blocks.foldl (fun st b => keccakF (absorbBlock st b)) (List.replicate 25 0)
  ((List.range 4).map fun i =>
    (List.range 8).map fun j => ((final.getD i 0) >>> (8 * j)) % 256).flatten

/-! ## UTF-8 encoding of strings, as used by ethers.toUtf8Bytes -/

/-- UTF-8 encoding of a single character. -/
def utf8Char (c : Char) : List Nat :=
  let n := c.toNat
  if n < 0x80 then [n]
  else if n < 0x800 then [0xC0 ||| (n >>> 6), 0x80 ||| (n &&& 0x3F)]
  else if n < 0x10000 then
    [0xE0 ||| (n >>> 12), 0x80 ||| ((n >>> 6) &&& 0x3F), 0x80 ||| (n &&& 0x3F)]
  else
    [0xF0 ||| (n >>> 18), 0x80 ||| ((n >>> 12) &&& 0x3F),
     0x80 ||| ((n >>> 6) &&& 0x3F), 0x80 ||| (n &&& 0x3F)]

/-- UTF-8 encoding of a string as a byte list. -/
def utf8Bytes (s : String) : List Nat :=
  (s.toList.map utf8Char).flatten

/-! ## JSON serialization, modelling JSON.stringify on Project arrays -/

/-- Lowercase hexadecimal digit. -/
def hexDigit (n : Nat) : Char :=
  if n < 10 then Char.ofNat (48 + n) else Char.ofNat (87 + n)

/-- Escaping of a single character inside a JSON string literal. -/
def jsonEscapeChar (c : Char) : String :=
  if c = Char.ofNat 34 then "\\\""
  else if c = Char.ofNat 92 then "\\\\"
  else if c = Char.ofNat 8 then "\\b"
  else if c = Char.ofNat 9 then "\\t"
  else if c = Char.ofNat 10 then "\\n"
  else if c = Char.ofNat 12 then "\\f"
  else if c = Char.ofNat 13 then "\\r"
  else if c.toNat < 32 then
    "\\u00" ++ String.mk [hexDigit (c.toNat / 16), hexDigit (c.toNat % 16)]
  else String.singleton c

/-- JSON string literal for s. -/
def jsonString (s : String) : String :=
  "\"" ++ String.join (s.toList.map jsonEscapeChar) ++ "\""

/-! ## Data model from src/utils.ts and src/config.ts -/

/-- Leaderboard entry, from the Project interface in src/utils.ts.
The JavaScript number score is modelled as an integer. -/
structure Project where
  name : String
  rank : Nat
  score : Int
  logo : String
deriving DecidableEq, Repr

/-- JSON.stringify of one Project object, fields in interface order. -/
def projectJson (p : Project) : String :=
  "\x7b\"name\":" ++ jsonString p.name ++ ",\"rank\":" ++ toString p.rank ++
    ",\"score\":" ++ toString p.score ++ ",\"logo\":" ++ jsonString p.logo ++ "\x7d"

/-- JSON.stringify of a Project array. -/
def jsonStringify (lb : List Project) : String :=
  "[" ++ String.intercalate "," (lb.map projectJson) ++ "]"

/-- The hashJson function from src/utils.ts: keccak256 of the UTF-8 bytes of
a JSON string. The hex string returned by ethers is modelled as the raw
32-byte digest. -/
def hashJson (json : String) : List Nat :=
  keccak256 (utf8Bytes json)

/-- Market configuration, from the MarketConfig interface in src/config.ts.
Optional fields are Option values; the hex bytes32 market id is a byte list. -/
structure MarketConfig where
  type : String
  projectName : Option String
  projectA : Option String
  projectB : Option String
  lockTime : Nat
  resolveTime : Nat
  questionHash : String
  marketId : Option (List Nat)
  marketAddress : Option String
deriving DecidableEq, Repr

/-- Rendering of an optional string inside a JavaScript template literal:
a missing value prints as undefined. -/
def showOpt (o : Option String) : String :=
  o.getD "undefined"

/-- Result of determineWinner in src/utils.ts. -/
structure WinnerResult where
  winner : Nat
  snapshotHash : List Nat
deriving DecidableEq, Repr

/-- The determineWinner function from src/utils.ts. -/
def determineWinner (market : MarketConfig) (randomizedLeaderboard : List Project) :
    Except String WinnerResult :=
  let snapshotJson := jsonStringify randomizedLeaderboard
  let snapshotHash := hashJson snapshotJson
  if market.type == "top10" then
    match randomizedLeaderboard.find? (fun p => some p.name == market.projectName) with
    | none => .error s!"Project {showOpt market.projectName} not found in leaderboard"
    | some project => .ok ⟨if project.rank ≤ 10 then 1 else 2, snapshotHash⟩
  else if market.type == "h2h" then
    match randomizedLeaderboard.find? (fun p => some p.name == market.projectA),
          randomizedLeaderboard.find? (fun p => some p.name == market.projectB) with
    | some projectA, some projectB =>
        .ok ⟨if projectA.rank < projectB.rank then 1 else 2, snapshotHash⟩
    | _, _ =>
        .error s!"Projects not found: {showOpt market.projectA} or {showOpt market.projectB}"
  else
    .error s!"Unknown market type: {market.type}"

/-! ## ABI encoding and generateBlobHash from src/utils.ts -/

/-- Big-endian byte representation of n on w bytes, low bytes last. -/
def beBytes : Nat → Nat → List Nat
  | 0, _ => []
  | w + 1, n => beBytes w (n / 256) ++ [n % 256]

/-- Value passed to the ethers ABI coder in generateBlobHash: a 32-byte
value given as bytes, an unsigned integer of a declared bit width, or an
address. -/
inductive AbiValue where
  | b32 (bs : List Nat)
  | uint (width : Nat) (n : Nat)
  | address (a : Nat)

/-- Head word of the ABI encoding of one static value: every static value
occupies one 32-byte word, numeric values big-endian and left-padded.
Numeric values are assumed in range for their declared width, as the ethers
coder validates before encoding. -/
def abiHeadWord : AbiValue → List Nat
  | .b32 bs => bs
  | .uint _ n => beBytes 32 n
  | .address a => beBytes 32 a

/-- ABI encoding of a tuple of static values: concatenation of head words,
as produced by ethers AbiCoder.defaultAbiCoder().encode. -/
def abiEncode (vs : List AbiValue) : List Nat :=
  (vs.map abiHeadWord).flatten

/-- The literal schema string hashed by generateBlobHash in src/utils.ts. -/
def resolveTypeString : String :=
  "Resolve(bytes32 marketId,uint8 winner,bytes32 snapshotHash,uint64 resolvedAt,uint64 challengeUntil,uint256 nonce,address this)"

/-- The generateBlobHash function from src/utils.ts. Hex string arguments
(bytes32 market id and snapshot hash, the 20-byte oracle address) are
modelled as the byte values they denote. -/
def generateBlobHash (marketId : List Nat) (winner : Nat) (snapshotHash : List Nat)
    (resolvedAt challengeUntil : Nat) (nonce : Nat) (oracleAddress : Nat) : List Nat :=
  let typeHash := keccak256 (utf8Bytes resolveTypeString)
  keccak256 (abiEncode
    [.b32 typeHash, .b32 marketId, .uint 8 winner, .b32 snapshotHash,
     .uint 64 resolvedAt, .uint 64 challengeUntil, .uint 256 nonce, .address oracleAddress])

/-! ## Pipeline model from src/index.ts (the oracle batch driver) -/

/-- Resolution record from src/index.ts, with the bytes32 hex fields
modelled as byte lists and the bigint nonce as a natural number. -/
structure Resolution where
  marketId : List Nat
  winner : Nat
  snapshotHash : List Nat
  resolvedAt : Nat
  challengeUntil : Nat
  nonce : Nat
deriving DecidableEq, Repr

/-- Contract address table from src/config.ts, addresses as 160-bit values. -/
structure ContractAddresses where
  settlementOracle : Nat
  marketFactory : Nat
  stakeToken : Nat
deriving DecidableEq, Repr

/-- Observable side effects of one batch run: a market id computed on chain,
a signature produced over a blob digest, and a submission of a signed
resolution to the settlement oracle. -/
inductive Event where
  | computedMarketId (questionHash : String) (id : List Nat)
  | signed (digest : List Nat)
  | submitted (res : Resolution) (sig : String)
deriving DecidableEq, Repr

/-- Environment of external collaborators used by the driver: the market
factory call computing a market id, the contract address lookup, the wallet
signing a digest, and the settlement oracle submission. Each may fail with
a JavaScript Error message. -/
structure Env where
  computeMarketId : String → Nat → Except String (List Nat)
  getContracts : Except String ContractAddresses
  signMessage : List Nat → Except String String
  post : Resolution → String → Except String Unit

/-- Replace the cached market id on a market configuration, modelling the
in-place mutation market.marketId = ... in processMarkets. -/
def setMarketId (m : MarketConfig) (mid : List Nat) : MarketConfig :=
  ⟨m.type, m.projectName, m.projectA, m.projectB, m.lockTime, m.resolveTime,
   m.questionHash, some mid, m.marketAddress⟩

/-- The createResolution function from src/index.ts, returning the
resolution and signature next to the trace of effect events it caused. -/
def createResolution (env : Env) (market : MarketConfig) (lb : List Project) (bt : Nat) :
    Except String (Resolution × String) × List Event :=
  match market.marketId with
  | none => (.error s!"Market ID not set for market: {market.questionHash}", [])
  | some mid =>
    match determineWinner market lb with
    | .error e => (.error e, [])
    | .ok w =>
      let resolvedAt := bt
      let challengeUntil := 0
      let nonce := bt
      let res : Resolution := ⟨mid, w.winner, w.snapshotHash, resolvedAt, challengeUntil, nonce⟩
      match env.getContracts with
      | .error e => (.error e, [])
      | .ok cs =>
        let blob := generateBlobHash mid w.winner w.snapshotHash resolvedAt challengeUntil
          nonce cs.settlementOracle
        match env.signMessage blob with
        | .error e => (.error e, [.signed blob])
        | .ok sig => (.ok (res, sig), [.signed blob])

/-- Resolution and submission stage shared by both market id paths:
createResolution followed by postResolution. -/
def resolveAndPost (env : Env) (lb : List Project) (bt : Nat) (m : MarketConfig)
    (ev0 : List Event) : Except String Unit × List Event :=
  match createResolution env m lb bt with
  | (.error e, ev) => (.error e, ev0 ++ ev)
  | (.ok rs, ev) =>
    match env.post rs.1 rs.2 with
    | .error e => (.error e, ev0 ++ ev ++ [.submitted rs.1 rs.2])
    | .ok _ => (.ok (), ev0 ++ ev ++ [.submitted rs.1 rs.2])

/-- Body of the try block of the batch loop after the time gate: compute
the market id if unset, then create, sign and post the resolution. -/
def readyProcess (env : Env) (lb : List Project) (bt : Nat) (m : MarketConfig) :
    Except String Unit × List Event :=
  match m.marketId with
  | some _ => resolveAndPost env lb bt m []
  | none =>
    match env.computeMarketId m.questionHash m.lockTime with
    | .error e => (.error e, [])
    | .ok mid => resolveAndPost env lb bt (setMarketId m mid) [.computedMarketId m.questionHash mid]

/-- Whether the first list occurs contiguously inside the second. -/
def listContains [BEq α] : List α → List α → Bool
  | needle, [] => needle.isEmpty
  | needle, a :: rest => needle.isPrefixOf (a :: rest) || listContains needle rest

/-- String inclusion test modelling JavaScript String.prototype.includes. -/
def strIncludes (s sub : String) : Bool :=
  listContains sub.toList s.toList

/-- One iteration of the batch loop in processMarkets from src/index.ts,
acting on the pair of counters (processed, skipped): markets whose resolve
time is in the future are skipped, errors whose message contains time are
downgraded to skips, any other error propagates. -/
def processOne (env : Env) (lb : List Project) (bt : Nat) (m : MarketConfig)
    (st : Nat × Nat) : Except String (Nat × Nat) × List Event :=
  if bt < m.resolveTime then (.ok (st.1, st.2 + 1), [])
  else
    match readyProcess env lb bt m with
    | (.ok _, ev) => (.ok (st.1 + 1, st.2), ev)
    | (.error e, ev) =>
      if strIncludes e "time" then (.ok (st.1, st.2 + 1), ev)
      else (.error e, ev)

/-- The batch loop of processMarkets from src/index.ts over a market list:
a propagated error aborts the remaining markets, otherwise the trace and
counters accumulate. -/
def processMarkets (env : Env) (lb : List Project) (bt : Nat) :
    List MarketConfig → Nat × Nat → Except String (Nat × Nat) × List Event
  | [], st => (.ok st, [])
  | m :: rest, st =>
    match processOne env lb bt m st with
    | (.error e, ev) => (.error e, ev)
    | (.ok st2, ev) =>
      ((processMarkets env lb bt rest st2).1, ev ++ (processMarkets env lb bt rest st2).2)

/-! ## Helper lemmas -/

theorem beBytes_zero (w : Nat) : beBytes w 0 = List.replicate w 0 := by
  induction w with
  | zero => rfl
  | succ w ih => simp [beBytes, ih, List.replicate_succ']

theorem beBytes_add (a b n : Nat) :
    beBytes (a + b) n = beBytes a (n / 256 ^ b) ++ beBytes b n := by
  induction b generalizing n with
  | zero => simp [beBytes]
  | succ b ih =>
    have h1 : a + (b + 1) = (a + b) + 1 := by omega
    rw [h1, beBytes, ih (n / 256), beBytes]
    rw [Nat.div_div_eq_div_mul, List.append_assoc]
    have h2 : 256 * 256 ^ b = 256 ^ (b + 1) := by
      rw [pow_succ, mul_comm]
    rw [h2]

theorem beBytes_pad (k n : Nat) (hk : k ≤ 32) (h : n < 256 ^ k) :
    beBytes 32 n = List.replicate (32 - k) 0 ++ beBytes k n := by
  have h32 : 32 - k + k = 32 := Nat.sub_add_cancel hk
  calc beBytes 32 n = beBytes (32 - k + k) n := by rw [h32]
    _ = beBytes (32 - k) (n / 256 ^ k) ++ beBytes k n := beBytes_add _ _ _
    _ = List.replicate (32 - k) 0 ++ beBytes k n := by
        rw [Nat.div_eq_of_lt h, beBytes_zero]

theorem find_name_none (lb : List Project) (o : Option String)
    (h : ∀ p ∈ lb, some p.name ≠ o) :
    lb.find? (fun p => some p.name == o) = none := by
  rw [List.find?_eq_none]
  intro p hp
  simpa using h p hp

theorem determineWinner_top10_none (market : MarketConfig) (lb : List Project)
    (ht : market.type = "top10")
    (hfind : lb.find? (fun p => some p.name == market.projectName) = none) :
    determineWinner market lb =
      .error s!"Project {showOpt market.projectName} not found in leaderboard" := by
  simp [determineWinner, ht, hfind]

theorem determineWinner_top10_found (market : MarketConfig) (lb : List Project) (p : Project)
    (ht : market.type = "top10")
    (hfind : lb.find? (fun q => some q.name == market.projectName) = some p) :
    determineWinner market lb =
      .ok ⟨if p.rank ≤ 10 then 1 else 2, hashJson (jsonStringify lb)⟩ := by
  simp [determineWinner, ht, hfind]

theorem determineWinner_h2h_none (market : MarketConfig) (lb : List Project)
    (ht : market.type = "h2h")
    (h : lb.find? (fun q => some q.name == market.projectA) = none ∨
         lb.find? (fun q => some q.name == market.projectB) = none) :
    determineWinner market lb =
      .error s!"Projects not found: {showOpt market.projectA} or {showOpt market.projectB}" := by
  rcases h with h | h
  · simp [determineWinner, ht, h]
  · cases hA : lb.find? (fun q => some q.name == market.projectA) with
    | none => simp [determineWinner, ht, hA]
    | some pa => simp [determineWinner, ht, hA, h]

theorem determineWinner_h2h_found (market : MarketConfig) (lb : List Project)
    (pa pb : Project) (ht : market.type = "h2h")
    (ha : lb.find? (fun q => some q.name == market.projectA) = some pa)
    (hb : lb.find? (fun q => some q.name == market.projectB) = some pb) :
    determineWinner market lb =
      .ok ⟨if pa.rank < pb.rank then 1 else 2, hashJson (jsonStringify lb)⟩ := by
  simp [determineWinner, ht, ha, hb]

theorem determineWinner_ok_snapshotHash (market : MarketConfig) (lb : List Project)
    (r : WinnerResult) (h : determineWinner market lb = .ok r) :
    r.snapshotHash = hashJson (jsonStringify lb) := by
  simp only [determineWinner] at h
  split at h
  · split at h
    · exact absurd h (by simp)
    · obtain rfl := (Except.ok.injEq _ _).mp h
      rfl
  · split at h
    · split at h
      · obtain rfl := (Except.ok.injEq _ _).mp h
        rfl
      · exact absurd h (by simp)
    · exact absurd h (by simp)

/-! ## Claim theorems -/

/-- C1: for every market id, winner, snapshot hash, resolvedAt,
challengeUntil, nonce and oracle address in the ranges of their declared
ABI types, generateBlobHash returns the keccak256 hash of the ABI encoding
of (typeHash, marketId, winner, snapshotHash, resolvedAt, challengeUntil,
nonce, oracleAddress) in this exact order with types (bytes32, bytes32,
uint8, bytes32, uint64, uint64, uint256, address), each field one 32-byte
word with the numeric fields big-endian and left-padded to 32 bytes, where
typeHash is the keccak256 hash of the exact UTF-8 schema string of the
Resolve record. -/
theorem generateBlobHash_matches_contract_encoding
    (marketId snapshotHash : List Nat) (winner resolvedAt challengeUntil nonce addr : Nat)
    (hmid : marketId.length = 32) (hsnap : snapshotHash.length = 32)
    (hw : winner < 2 ^ 8) (hr : resolvedAt < 2 ^ 64) (hc : challengeUntil < 2 ^ 64)
    (hn : nonce < 2 ^ 256) (ha : addr < 2 ^ 160) :
    generateBlobHash marketId winner snapshotHash resolvedAt challengeUntil nonce addr =
      keccak256
        (keccak256 (utf8Bytes "Resolve(bytes32 marketId,uint8 winner,bytes32 snapshotHash,uint64 resolvedAt,uint64 challengeUntil,uint256 nonce,address this)")
          ++ marketId
          ++ (List.replicate 31 0 ++ beBytes 1 winner)
          ++ snapshotHash
          ++ (List.replicate 24 0 ++ beBytes 8 resolvedAt)
          ++ (List.replicate 24 0 ++ beBytes 8 challengeUntil)
          ++ beBytes 32 nonce
          ++ (List.replicate 12 0 ++ beBytes 20 addr)) := by
  have hw2 : winner < 256 ^ 1 := by
    have e : (256 : Nat) ^ 1 = 2 ^ 8 := by norm_num
    omega
  have hr2 : resolvedAt < 256 ^ 8 := by
    have e : (256 : Nat) ^ 8 = 2 ^ 64 := by norm_num
    omega
  have hc2 : challengeUntil < 256 ^ 8 := by
    have e : (256 : Nat) ^ 8 = 2 ^ 64 := by norm_num
    omega
  have ha2 : addr < 256 ^ 20 := by
    have e : (256 : Nat) ^ 20 = 2 ^ 160 := by norm_num
    omega
  simp only [generateBlobHash, abiEncode, abiHeadWord, List.map, List.flatten_cons,
    List.flatten_nil, List.append_nil, resolveTypeString]
  rw [beBytes_pad 1 winner (by norm_num) hw2,
      beBytes_pad 8 resolvedAt (by norm_num) hr2,
      beBytes_pad 8 challengeUntil (by norm_num) hc2,
      beBytes_pad 20 addr (by norm_num) ha2]
  simp [List.append_assoc]

/-- Witness for C1 at a concrete all-zero commitment with winner 1. -/
theorem generateBlobHash_matches_contract_encoding_witness :
    generateBlobHash (List.replicate 32 0) 1 (List.replicate 32 0) 0 0 0 0 =
      keccak256
        (keccak256 (utf8Bytes "Resolve(bytes32 marketId,uint8 winner,bytes32 snapshotHash,uint64 resolvedAt,uint64 challengeUntil,uint256 nonce,address this)")
          ++ List.replicate 32 0
          ++ (List.replicate 31 0 ++ beBytes 1 1)
          ++ List.replicate 32 0
          ++ (List.replicate 24 0 ++ beBytes 8 0)
          ++ (List.replicate 24 0 ++ beBytes 8 0)
          ++ beBytes 32 0
          ++ (List.replicate 12 0 ++ beBytes 20 0)) :=
  generateBlobHash_matches_contract_encoding (List.replicate 32 0) (List.replicate 32 0)
    1 0 0 0 0 (by decide) (by decide) (by decide) (by decide) (by decide) (by decide)
    (by decide)

/-- C2: for every leaderboard and top10 market, if no entry name equals the
market subject name then determineWinner fails with the not-found error,
and otherwise it returns winner 1 when the located entry has rank at most
10 and winner 2 when its rank exceeds 10; the threshold 10 is the fixed
literal of determineWinner, which takes no threshold argument. -/
theorem determineWinner_top10_spec (market : MarketConfig) (lb : List Project)
    (ht : market.type = "top10") :
    ((∀ p ∈ lb, some p.name ≠ market.projectName) →
      determineWinner market lb =
        .error s!"Project {showOpt market.projectName} not found in leaderboard") ∧
    (∀ p, lb.find? (fun q => some q.name == market.projectName) = some p →
      determineWinner market lb =
        .ok ⟨if p.rank ≤ 10 then 1 else 2, hashJson (jsonStringify lb)⟩) := by
  constructor
  · intro habs
    exact determineWinner_top10_none market lb ht (find_name_none lb _ habs)
  · intro p hp
    exact determineWinner_top10_found market lb p ht hp

/-- Witness for C2 on a two-entry leaderboard with the subject at rank 3. -/
theorem determineWinner_top10_spec_witness :
    determineWinner ⟨"top10", some "Alpha", none, none, 0, 50, "q1", none, none⟩
        [⟨"Alpha", 3, 5, "logoA"⟩, ⟨"Beta", 11, 4, "logoB"⟩] =
      .ok ⟨if (⟨"Alpha", 3, 5, "logoA"⟩ : Project).rank ≤ 10 then 1 else 2,
        hashJson (jsonStringify [⟨"Alpha", 3, 5, "logoA"⟩, ⟨"Beta", 11, 4, "logoB"⟩])⟩ :=
  (determineWinner_top10_spec _ _ rfl).2 ⟨"Alpha", 3, 5, "logoA"⟩ (by decide)

/-- C3: for every leaderboard and h2h market, if either subject is absent
then determineWinner fails with the not-found error, and otherwise it
returns winner 1 when the first subject ranks strictly below the second
and winner 2 otherwise; in particular equal ranks give winner 2. -/
theorem determineWinner_h2h_spec (market : MarketConfig) (lb : List Project)
    (ht : market.type = "h2h") :
    (((∀ p ∈ lb, some p.name ≠ market.projectA) ∨ (∀ p ∈ lb, some p.name ≠ market.projectB)) →
      determineWinner market lb =
        .error s!"Projects not found: {showOpt market.projectA} or {showOpt market.projectB}") ∧
    (∀ pa pb, lb.find? (fun q => some q.name == market.projectA) = some pa →
      lb.find? (fun q => some q.name == market.projectB) = some pb →
      determineWinner market lb =
        .ok ⟨if pa.rank < pb.rank then 1 else 2, hashJson (jsonStringify lb)⟩ ∧
      (pa.rank = pb.rank →
        determineWinner market lb = .ok ⟨2, hashJson (jsonStringify lb)⟩)) := by
  constructor
  · intro habs
    refine determineWinner_h2h_none market lb ht ?_
    rcases habs with h | h
    · exact Or.inl (find_name_none lb _ h)
    · exact Or.inr (find_name_none lb _ h)
  · intro pa pb ha hb
    have hmain := determineWinner_h2h_found market lb pa pb ht ha hb
    refine ⟨hmain, fun heq => ?_⟩
    rw [hmain, if_neg (by omega)]

/-- Witness for C3 with subject A at rank 3 and subject B at rank 7. -/
theorem determineWinner_h2h_spec_witness :
    determineWinner ⟨"h2h", none, some "Alpha", some "Beta", 0, 50, "q2", none, none⟩
        [⟨"Alpha", 3, 5, "logoA"⟩, ⟨"Beta", 7, 4, "logoB"⟩] =
      .ok ⟨if (⟨"Alpha", 3, 5, "logoA"⟩ : Project).rank < (⟨"Beta", 7, 4, "logoB"⟩ : Project).rank
            then 1 else 2,
        hashJson (jsonStringify [⟨"Alpha", 3, 5, "logoA"⟩, ⟨"Beta", 7, 4, "logoB"⟩])⟩ :=
  ((determineWinner_h2h_spec _ _ rfl).2 ⟨"Alpha", 3, 5, "logoA"⟩ ⟨"Beta", 7, 4, "logoB"⟩
    (by decide) (by decide)).1

/-- C10: the snapshot hash component of a successful determineWinner result
depends only on the leaderboard: two markets resolved against the same
leaderboard receive the same snapshot hash. -/
theorem determineWinner_snapshotHash_market_independent
    (m1 m2 : MarketConfig) (lb : List Project) (r1 r2 : WinnerResult)
    (h1 : determineWinner m1 lb = .ok r1) (h2 : determineWinner m2 lb = .ok r2) :
    r1.snapshotHash = r2.snapshotHash := by
  rw [determineWinner_ok_snapshotHash m1 lb r1 h1,
      determineWinner_ok_snapshotHash m2 lb r2 h2]

/-- Witness for C10: a top10 market and an h2h market resolved on the same
two-entry leaderboard. -/
theorem determineWinner_snapshotHash_market_independent_witness :
    (WinnerResult.mk 1 (hashJson (jsonStringify
        [⟨"Alpha", 3, 5, "logoA"⟩, ⟨"Beta", 7, 4, "logoB"⟩]))).snapshotHash =
    (WinnerResult.mk 1 (hashJson (jsonStringify
        [⟨"Alpha", 3, 5, "logoA"⟩, ⟨"Beta", 7, 4, "logoB"⟩]))).snapshotHash :=
  determineWinner_snapshotHash_market_independent
    ⟨"top10", some "Alpha", none, none, 0, 50, "q1", none, none⟩
    ⟨"h2h", none, some "Alpha", some "Beta", 0, 50, "q2", none, none⟩
    [⟨"Alpha", 3, 5, "logoA"⟩, ⟨"Beta", 7, 4, "logoB"⟩] _ _ rfl rfl

/-- C6: building a resolution requires the market id: with the id unset,
createResolution fails with the market-id-unset error and causes no effect,
producing no winner, commitment or signature; and every commitment it does
build carries challengeUntil zero, resolvedAt equal to the given block
timestamp, and nonce equal to that resolvedAt value. -/
theorem createResolution_spec (env : Env) (market : MarketConfig) (lb : List Project)
    (bt : Nat) :
    (market.marketId = none →
      createResolution env market lb bt =
        (.error s!"Market ID not set for market: {market.questionHash}", [])) ∧
    (∀ res sig ev, createResolution env market lb bt = (.ok (res, sig), ev) →
      res.challengeUntil = 0 ∧ res.resolvedAt = bt ∧ res.nonce = res.resolvedAt) := by
  constructor
  · intro h
    simp [createResolution, h]
  · intro res sig ev h
    simp only [createResolution] at h
    split at h
    · exact absurd h (by simp)
    · split at h
      · exact absurd h (by simp)
      · split at h
        · exact absurd h (by simp)
        · split at h
          · exact absurd h (by simp)
          · simp only [Prod.mk.injEq, Except.ok.injEq] at h
            obtain ⟨⟨hres, hsig⟩, hev⟩ := h
            subst hres
            exact ⟨rfl, rfl, rfl⟩

/-- Witness for C6: a market configuration without a market id is rejected. -/
theorem createResolution_spec_witness :
    createResolution ⟨fun _ _ => .ok [], .ok ⟨7, 8, 9⟩, fun _ => .ok "sig", fun _ _ => .ok ()⟩
        ⟨"top10", some "Alpha", none, none, 0, 50, "q1", none, none⟩
        [⟨"Alpha", 3, 5, "logoA"⟩] 100 =
      (.error "Market ID not set for market: q1", []) :=
  (createResolution_spec _ _ _ _).1 rfl

/-- C5: a market whose resolve time lies strictly after the block timestamp
of the run is skipped without any effect: no market id computation, no
signature, no submission, the skipped counter is incremented, the processed
counter is unchanged, and the batch continues with the remaining markets. -/
theorem processMarkets_time_gate (env : Env) (lb : List Project) (bt : Nat)
    (m : MarketConfig) (rest : List MarketConfig) (st : Nat × Nat)
    (h : bt < m.resolveTime) :
    processOne env lb bt m st = (.ok (st.1, st.2 + 1), ([] : List Event)) ∧
    processMarkets env lb bt (m :: rest) st =
      processMarkets env lb bt rest (st.1, st.2 + 1) := by
  have h1 : processOne env lb bt m st = (.ok (st.1, st.2 + 1), []) := by
    simp [processOne, h]
  refine ⟨h1, ?_⟩
  simp [processMarkets, h1]

/-- Witness for C5: a market resolving at time 150 evaluated at time 100. -/
theorem processMarkets_time_gate_witness :
    processOne ⟨fun _ _ => .ok [], .ok ⟨7, 8, 9⟩, fun _ => .ok "sig", fun _ _ => .ok ()⟩
        [⟨"Alpha", 3, 5, "logoA"⟩] 100
        ⟨"top10", some "Alpha", none, none, 0, 150, "q1", none, none⟩ (0, 0) =
      (.ok (0, 1), ([] : List Event)) ∧
    processMarkets ⟨fun _ _ => .ok [], .ok ⟨7, 8, 9⟩, fun _ => .ok "sig", fun _ _ => .ok ()⟩
        [⟨"Alpha", 3, 5, "logoA"⟩] 100
        [⟨"top10", some "Alpha", none, none, 0, 150, "q1", none, none⟩] (0, 0) =
      processMarkets ⟨fun _ _ => .ok [], .ok ⟨7, 8, 9⟩, fun _ => .ok "sig", fun _ _ => .ok ()⟩
        [⟨"Alpha", 3, 5, "logoA"⟩] 100 [] (0, 1) :=
  processMarkets_time_gate _ _ _ _ _ _ (by decide)

/-- C7: an error raised during ready processing whose message contains the
substring time is downgraded to a skip: the skipped counter is incremented
and the batch continues with the remaining markets instead of propagating
the error. -/
theorem processMarkets_time_error_skips (env : Env) (lb : List Project) (bt : Nat)
    (m : MarketConfig) (rest : List MarketConfig) (st : Nat × Nat) (e : String)
    (ev : List Event) (hready : ¬ bt < m.resolveTime)
    (herr : readyProcess env lb bt m = (.error e, ev))
    (htime : strIncludes e "time" = true) :
    processOne env lb bt m st = (.ok (st.1, st.2 + 1), ev) ∧
    processMarkets env lb bt (m :: rest) st =
      ((processMarkets env lb bt rest (st.1, st.2 + 1)).1,
        ev ++ (processMarkets env lb bt rest (st.1, st.2 + 1)).2) := by
  have h1 : processOne env lb bt m st = (.ok (st.1, st.2 + 1), ev) := by
    simp [processOne, hready, herr, htime]
  refine ⟨h1, ?_⟩
  simp [processMarkets, h1]

/-- Witness for C7: computing the market id fails with a message containing
the word time, and the batch records a skip and moves on. -/
theorem processMarkets_time_error_skips_witness :
    processOne ⟨fun _ _ => .error "block time not reached", .ok ⟨7, 8, 9⟩,
        fun _ => .ok "sig", fun _ _ => .ok ()⟩
        [⟨"Alpha", 3, 5, "logoA"⟩] 100
        ⟨"top10", some "Alpha", none, none, 0, 50, "q1", none, none⟩ (0, 0) =
      (.ok (0, 1), ([] : List Event)) ∧
    processMarkets ⟨fun _ _ => .error "block time not reached", .ok ⟨7, 8, 9⟩,
        fun _ => .ok "sig", fun _ _ => .ok ()⟩
        [⟨"Alpha", 3, 5, "logoA"⟩] 100
        [⟨"top10", some "Alpha", none, none, 0, 50, "q1", none, none⟩] (0, 0) =
      ((processMarkets ⟨fun _ _ => .error "block time not reached", .ok ⟨7, 8, 9⟩,
          fun _ => .ok "sig", fun _ _ => .ok ()⟩
          [⟨"Alpha", 3, 5, "logoA"⟩] 100 [] (0, 1)).1,
        [] ++ (processMarkets ⟨fun _ _ => .error "block time not reached", .ok ⟨7, 8, 9⟩,
          fun _ => .ok "sig", fun _ _ => .ok ()⟩
          [⟨"Alpha", 3, 5, "logoA"⟩] 100 [] (0, 1)).2) :=
  processMarkets_time_error_skips
    ⟨fun _ _ => .error "block time not reached", .ok ⟨7, 8, 9⟩,
      fun _ => .ok "sig", fun _ _ => .ok ()⟩
    [⟨"Alpha", 3, 5, "logoA"⟩] 100
    ⟨"top10", some "Alpha", none, none, 0, 50, "q1", none, none⟩ [] (0, 0)
    "block time not reached" [] (by decide) (by decide) (by decide)

/-- C9: a ready market whose subject is absent from the snapshot fails with
the not-found error and with an empty effect trace, so no signature is
produced and no submission call occurs for that market. -/
theorem notFound_before_sign_and_submit (env : Env) (lb : List Project) (bt : Nat)
    (m : MarketConfig) (mid : List Nat) (hm : m.marketId = some mid)
    (ht : m.type = "top10") (habs : ∀ p ∈ lb, some p.name ≠ m.projectName) :
    readyProcess env lb bt m =
      (.error s!"Project {showOpt m.projectName} not found in leaderboard", []) := by
  have hdw := determineWinner_top10_none m lb ht (find_name_none lb _ habs)
  have hcr : createResolution env m lb bt =
      (.error s!"Project {showOpt m.projectName} not found in leaderboard", []) := by
    simp [createResolution, hm, hdw]
  simp [readyProcess, hm, resolveAndPost, hcr]

/-- Witness for C9: the subject Gamma is absent from the leaderboard. -/
theorem notFound_before_sign_and_submit_witness :
    readyProcess ⟨fun _ _ => .ok [], .ok ⟨7, 8, 9⟩, fun _ => .ok "sig", fun _ _ => .ok ()⟩
        [⟨"Alpha", 3, 5, "logoA"⟩] 100
        ⟨"top10", some "Gamma", none, none, 0, 50, "q1", some (List.replicate 32 0), none⟩ =
      (.error "Project Gamma not found in leaderboard", []) :=
  notFound_before_sign_and_submit _ _ _ _ (List.replicate 32 0) rfl rfl (by decide)

/-- Equality of projects follows from equality of all four fields. -/
theorem project_eq_of_fields (p q : Project) (h1 : p.name = q.name) (h2 : p.rank = q.rank)
    (h3 : p.score = q.score) (h4 : p.logo = q.logo) : p = q := by
  cases p
  cases q
  simp_all

/-- C8: the canonical snapshot hash is deterministic: two leaderboards of
the same length whose entries agree field by field at every position give
byte-identical keccak256 snapshot hashes. -/
theorem snapshotHash_deterministic (l1 l2 : List Project)
    (hlen : l1.length = l2.length)
    (hent : ∀ i (h1 : i < l1.length) (h2 : i < l2.length),
      (l1.get ⟨i, h1⟩).name = (l2.get ⟨i, h2⟩).name ∧
      (l1.get ⟨i, h1⟩).rank = (l2.get ⟨i, h2⟩).rank ∧
      (l1.get ⟨i, h1⟩).score = (l2.get ⟨i, h2⟩).score ∧
      (l1.get ⟨i, h1⟩).logo = (l2.get ⟨i, h2⟩).logo) :
    hashJson (jsonStringify l1) = hashJson (jsonStringify l2) := by
  have hl : l1 = l2 := by
    apply List.ext_get hlen
    intro i h1 h2
    obtain ⟨hn, hr, hs, hlo⟩ := hent i h1 h2
    exact project_eq_of_fields _ _ hn hr hs hlo
  rw [hl]

/-- Witness for C8 on a concrete one-entry leaderboard. -/
theorem snapshotHash_deterministic_witness :
    hashJson (jsonStringify [⟨"Alpha", 3, 5, "logoA"⟩]) =
      hashJson (jsonStringify [⟨"Alpha", 3, 5, "logoA"⟩]) :=
  snapshotHash_deterministic [⟨"Alpha", 3, 5, "logoA"⟩] [⟨"Alpha", 3, 5, "logoA"⟩] rfl
    (fun i h1 h2 => by
      have hi : i = 0 := by
        simp only [List.length_singleton] at h1
        omega
      subst hi
      exact ⟨rfl, rfl, rfl, rfl⟩)

/-- C4: at the failing input, a batch of two ready markets whose first
market raises the error boom aborts: processMarkets returns that error,
no event is recorded for either market and the counters are lost, although
the second market on its own processes successfully. The code therefore
rethrows a non-time error out of the loop instead of recording the market
as failed and continuing. -/
theorem processMarkets_aborts_on_nontime_error :
    processMarkets ⟨fun _ _ => .error "boom", .ok ⟨7, 8, 9⟩, fun _ => .ok "sig",
        fun _ _ => .ok ()⟩
      [⟨"Alpha", 3, 5, "logoA"⟩, ⟨"Beta", 7, 4, "logoB"⟩] 100
      [⟨"top10", some "Alpha", none, none, 0, 50, "q1", none, none⟩,
       ⟨"top10", some "Alpha", none, none, 0, 50, "q2", some (List.replicate 32 0), none⟩]
      (0, 0) = (.error "boom", []) ∧
    (processOne ⟨fun _ _ => .error "boom", .ok ⟨7, 8, 9⟩, fun _ => .ok "sig",
        fun _ _ => .ok ()⟩
      [⟨"Alpha", 3, 5, "logoA"⟩, ⟨"Beta", 7, 4, "logoB"⟩] 100
      ⟨"top10", some "Alpha", none, none, 0, 50, "q2", some (List.replicate 32 0), none⟩
      (0, 0)).1 = .ok (1, 0) :=
  ⟨by decide, by decide⟩

end MindshareOracle
